import Mathlib

/-!
Verification of the tftp-rs repository (a Rust TFTP implementation) against
its natural-language specification.  The Rust sources are shallowly embedded:

* Rust strings (`str`, `String`) are `List Nat` of Unicode scalar values;
* byte buffers (`&[u8]`, `Vec<u8>`) are `List Nat` of byte values;
* fallible operations return `Option`; operations that can abort abnormally
  (slice-index panics, `unwrap` on `None`, `unimplemented!`) return a
  dedicated outcome type with an explicit `panics` constructor;
* the stateful GET session loop of `client.rs` is embedded as a pure step
  function on an explicit session-state record.
-/

namespace Tftp

/-! ### Netascii transcoder, from src/tftp/netascii.rs -/

/-- Embeds `is_escape_required` from netascii.rs: true when the string
contains a carriage return (13) or line feed (10). -/
def is_escape_required (s : List Nat) : Bool :=
  s.any (fun c => c == 13 || c == 10)

/-- Embeds the character-walking loop of `from_netascii`: a 13 must be
followed by 10 (decoding to 10) or by 0 (decoding to 13); any other
follow-up, or end of input right after 13, fails. -/
def from_netascii_loop : List Nat → Option (List Nat)
  | [] => some []
  | [c] =>
      if c = 13 then none
      else (from_netascii_loop []).map (fun r => c :: r)
  | c :: d :: rest =>
      if c = 13 then
        if d = 10 then (from_netascii_loop rest).map (fun r => 10 :: r)
        else if d = 0 then (from_netascii_loop rest).map (fun r => 13 :: r)
        else none
      else (from_netascii_loop (d :: rest)).map (fun r => c :: r)

/-- Embeds `from_netascii` from netascii.rs, including its fast path for
strings that need no escaping. -/
def from_netascii (s : List Nat) : Option (List Nat) :=
  if is_escape_required s = false then some s
  else from_netascii_loop s

/-- Embeds the escaping loop of `to_netascii`: 10 becomes [13, 10] and
13 becomes [13, 0]. -/
def to_netascii_loop : List Nat → List Nat
  | [] => []
  | c :: rest =>
      if c = 10 then 13 :: 10 :: to_netascii_loop rest
      else if c = 13 then 13 :: 0 :: to_netascii_loop rest
      else c :: to_netascii_loop rest

/-- Embeds `to_netascii` from netascii.rs, including its fast path. -/
def to_netascii (s : List Nat) : List Nat :=
  if is_escape_required s = false then s
  else to_netascii_loop s

/-- Predicate on strings: every occurrence of 13 is immediately followed
by 10 or by 0. -/
def crOk : List Nat → Bool
  | [] => true
  | [c] => c != 13
  | c :: d :: rest =>
      if c = 13 then (d == 10 || d == 0) && crOk (d :: rest)
      else crOk (d :: rest)

/-! ### UTF-8, modelling Rust std `str::as_bytes` and `str::from_utf8`
(used by packet.rs for the text fields of request and error packets) -/

/-- Unicode scalar-value encoding of one character as UTF-8 bytes. -/
def utf8EncodeChar (v : Nat) : List Nat :=
  if v < 128 then [v]
  else if v < 2048 then [192 + v / 64, 128 + v % 64]
  else if v < 65536 then [224 + v / 4096, 128 + v / 64 % 64, 128 + v % 64]
  else [240 + v / 262144, 128 + v / 4096 % 64, 128 + v / 64 % 64, 128 + v % 64]

/-- UTF-8 byte encoding of a string, as produced by `str::as_bytes`. -/
def utf8Encode (s : List Nat) : List Nat :=
  s.flatMap utf8EncodeChar

mutual

/-- UTF-8 validation and decoding as performed by `str::from_utf8`,
rejecting overlong forms, surrogates and values above 0x10FFFF.  The
continuation-byte handling for 2-, 3- and 4-byte sequences lives in
the `utf8Tail` helpers below. -/
def utf8Decode : List Nat → Option (List Nat)
  | [] => some []
  | b :: rest =>
    if b < 128 then (utf8Decode rest).map (fun r => b :: r)
    else if b < 194 then none
    else if b < 224 then utf8Tail1 b rest
    else if b < 240 then utf8Tail2 b rest
    else if b < 245 then utf8Tail3 b rest
    else none

/-- One continuation byte of a 2-byte UTF-8 sequence. -/
def utf8Tail1 (b : Nat) : List Nat → Option (List Nat)
  | b1 :: rest1 =>
      if 128 ≤ b1 ∧ b1 < 192 then
        (utf8Decode rest1).map (fun r => ((b - 192) * 64 + (b1 - 128)) :: r)
      else none
  | [] => none

/-- Two continuation bytes of a 3-byte UTF-8 sequence, with the E0/ED
range restrictions that reject overlong forms and surrogates. -/
def utf8Tail2 (b : Nat) : List Nat → Option (List Nat)
  | b1 :: b2 :: rest2 =>
      if (if b = 224 then 160 else 128) ≤ b1 ∧
         b1 < (if b = 237 then 160 else 192) ∧
         128 ≤ b2 ∧ b2 < 192 then
        (utf8Decode rest2).map
          (fun r => ((b - 224) * 4096 + (b1 - 128) * 64 + (b2 - 128)) :: r)
      else none
  | _ => none

/-- Three continuation bytes of a 4-byte UTF-8 sequence, with the F0/F4
range restrictions that reject overlong forms and values above 0x10FFFF. -/
def utf8Tail3 (b : Nat) : List Nat → Option (List Nat)
  | b1 :: b2 :: b3 :: rest3 =>
      if (if b = 240 then 144 else 128) ≤ b1 ∧
         b1 < (if b = 244 then 144 else 192) ∧
         128 ≤ b2 ∧ b2 < 192 ∧ 128 ≤ b3 ∧ b3 < 192 then
        (utf8Decode rest3).map
          (fun r => ((b - 240) * 262144 + (b1 - 128) * 4096 +
                     (b2 - 128) * 64 + (b3 - 128)) :: r)
      else none
  | _ => none

end

/-- A Unicode scalar value: below the surrogate range or between the end
of the surrogate range and 0x110000.  Rust `char` carries this invariant. -/
def ValidScalar (v : Nat) : Prop :=
  v < 55296 ∨ (57344 ≤ v ∧ v < 1114112)

/-- A Rust string is a sequence of Unicode scalar values. -/
def ValidStr (s : List Nat) : Prop :=
  ∀ v ∈ s, ValidScalar v

/-! ### Packet codec, from src/tftp/packet.rs -/

/-- Models a big-endian u16 read from a cursor (`read_u16::<BigEndian>`):
consumes two bytes, returns the value and the remaining bytes. -/
def readU16 : List Nat → Option (Nat × List Nat)
  | b0 :: b1 :: rest => some (b0 * 256 + b1, rest)
  | _ => none

/-- Models a big-endian u16 write (`write_u16::<BigEndian>`). -/
def writeU16 (v : Nat) : List Nat :=
  [v / 256 % 256, v % 256]

/-- Models `Cursor::new(buf)` followed by writing `written` from position 0
and `into_inner()`: the written bytes overwrite the front of `buf`. -/
def writeBytes (buf written : List Nat) : List Nat :=
  written ++ buf.drop written.length

/-- Models the first item of Rust `s.split(given char 0)`: the prefix before the
first NUL (or the whole string when no NUL occurs). -/
def splitFirst (l : List Nat) : List Nat :=
  l.takeWhile (fun c => c != 0)

/-- Models advancing Rust `split` past the first item: `some` of the
remainder after the first NUL when one exists, otherwise `none`
(the iterator is exhausted after yielding the only item). -/
def splitRest (l : List Nat) : Option (List Nat) :=
  if l.contains 0 = true then some ((l.dropWhile (fun c => c != 0)).tail)
  else none

/-- Opcode enumeration from packet.rs. -/
inductive Opcode where
  | RRQ
  | WRQ
  | DATA
  | ACK
  | ERROR
deriving DecidableEq

/-- Embeds `Opcode::from_u16`. -/
def Opcode.from_u16 (v : Nat) : Option Opcode :=
  if v = 1 then some Opcode.RRQ
  else if v = 2 then some Opcode.WRQ
  else if v = 3 then some Opcode.DATA
  else if v = 4 then some Opcode.ACK
  else if v = 5 then some Opcode.ERROR
  else none

/-- The numeric discriminant of an opcode (the Rust `as u16` cast). -/
def Opcode.to_u16 : Opcode → Nat
  | Opcode.RRQ => 1
  | Opcode.WRQ => 2
  | Opcode.DATA => 3
  | Opcode.ACK => 4
  | Opcode.ERROR => 5

/-- Transfer mode enumeration from packet.rs. -/
inductive Mode where
  | NetAscii
  | Octet
deriving DecidableEq

/-- Embeds `Mode::as_str`: the scalar values of "netascii" and "octet". -/
def Mode.as_str : Mode → List Nat
  | Mode.NetAscii => [110, 101, 116, 97, 115, 99, 105, 105]
  | Mode.Octet => [111, 99, 116, 101, 116]

/-- Embeds `Mode::from_str`: exact, case-sensitive match. -/
def Mode.from_str (s : List Nat) : Option Mode :=
  if s = Mode.as_str Mode.NetAscii then some Mode.NetAscii
  else if s = Mode.as_str Mode.Octet then some Mode.Octet
  else none

/-- Error-code enumeration from packet.rs (Rust enum `Error`). -/
inductive Error where
  | Undefined
  | FileNotFound
  | AccessViolation
  | DiskFull
  | IllegalOperation
  | UnknownTransferId
  | FileAlreadyExists
  | NoSuchUser
deriving DecidableEq

/-- The numeric discriminant of an error code (the Rust `as u16` cast). -/
def Error.to_u16 : Error → Nat
  | Error.Undefined => 0
  | Error.FileNotFound => 1
  | Error.AccessViolation => 2
  | Error.DiskFull => 3
  | Error.IllegalOperation => 4
  | Error.UnknownTransferId => 5
  | Error.FileAlreadyExists => 6
  | Error.NoSuchUser => 7

/-- Embeds `Error::from_u16`. -/
def Error.from_u16 (v : Nat) : Option Error :=
  if v = 0 then some Error.Undefined
  else if v = 1 then some Error.FileNotFound
  else if v = 2 then some Error.AccessViolation
  else if v = 3 then some Error.DiskFull
  else if v = 4 then some Error.IllegalOperation
  else if v = 5 then some Error.UnknownTransferId
  else if v = 6 then some Error.FileAlreadyExists
  else if v = 7 then some Error.NoSuchUser
  else none

/-- Outcome of an operation that can abort abnormally: either a Rust
panic (slice-index out of range, `unwrap` on `None`, `unimplemented!`)
or a normal `Option` result. -/
inductive DecodeOutcome (α : Type) where
  | panics : DecodeOutcome α
  | ok : Option α → DecodeOutcome α
deriving DecidableEq

/-- Embeds `RawPacket`: an untyped buffer plus its valid length. -/
structure RawPacket where
  buf : List Nat
  len : Nat
deriving DecidableEq

/-- Embeds `RawPacket::new`. -/
def RawPacket.new (buf : List Nat) (len : Nat) : RawPacket :=
  ⟨buf, len⟩

/-- Embeds `RawPacket::packet_buf`: the first `len` bytes of the buffer. -/
def RawPacket.packet_buf (p : RawPacket) : List Nat :=
  p.buf.take p.len

/-- Embeds `RawPacket::opcode`: peeks the first two bytes. -/
def RawPacket.opcode (p : RawPacket) : Option Opcode :=
  match readU16 p.packet_buf with
  | some (v, _) => Opcode.from_u16 v
  | none => none

/-- Embeds `RequestPacket` (read or write request; the filename field
holds the netascii-encoded string, as stored by the Rust struct). -/
inductive RequestPacket where
  | ReadRequest (filename : List Nat) (mode : Mode)
  | WriteRequest (filename : List Nat) (mode : Mode)
deriving DecidableEq

/-- Embeds `RequestPacket::read_request`: converts the filename to
netascii. -/
def RequestPacket.read_request (filename : List Nat) (mode : Mode) :
    RequestPacket :=
  RequestPacket.ReadRequest (to_netascii filename) mode

/-- Embeds `RequestPacket::write_request`. -/
def RequestPacket.write_request (filename : List Nat) (mode : Mode) :
    RequestPacket :=
  RequestPacket.WriteRequest (to_netascii filename) mode

/-- Embeds `RequestPacket::filename_raw`. -/
def RequestPacket.filename_raw : RequestPacket → List Nat
  | RequestPacket.ReadRequest f _ => f
  | RequestPacket.WriteRequest f _ => f

/-- Embeds `RequestPacket::mode`. -/
def RequestPacket.mode : RequestPacket → Mode
  | RequestPacket.ReadRequest _ m => m
  | RequestPacket.WriteRequest _ m => m

/-- Embeds `Packet::opcode` for `RequestPacket`. -/
def RequestPacket.opcode : RequestPacket → Opcode
  | RequestPacket.ReadRequest _ _ => Opcode.RRQ
  | RequestPacket.WriteRequest _ _ => Opcode.WRQ

/-- Embeds `Packet::len` for `RequestPacket`: 2 opcode bytes, the UTF-8
filename bytes, a NUL, the mode string bytes, a NUL. -/
def RequestPacket.len (p : RequestPacket) : Nat :=
  2 + (utf8Encode p.filename_raw).length + 1 +
    (utf8Encode (Mode.as_str p.mode)).length + 1

/-- Embeds `DecodePacket::decode` for `RequestPacket`: opcode must be RRQ
or WRQ, the rest of the buffer must be valid UTF-8 and contain a filename
field and a recognized mode field separated by NUL. -/
def RequestPacket.decode (data : List Nat) : DecodeOutcome RequestPacket :=
  let opcode :=
    match readU16 data with
    | some (v, _) => Opcode.from_u16 v
    | none => none
  if opcode ≠ some Opcode.RRQ ∧ opcode ≠ some Opcode.WRQ then
    DecodeOutcome.ok none
  else
    match utf8Decode (data.drop 2) with
    | none => DecodeOutcome.ok none
    | some body =>
        let filename := splitFirst body
        let mode :=
          match splitRest body with
          | some r => Mode.from_str (splitFirst r)
          | none => none
        match mode with
        | none => DecodeOutcome.ok none
        | some m =>
            DecodeOutcome.ok (some
              (if opcode = some Opcode.RRQ then
                RequestPacket.ReadRequest filename m
              else
                RequestPacket.WriteRequest filename m))

/-- Embeds `EncodePacket::encode_using` for `RequestPacket`. -/
def RequestPacket.encode_using (p : RequestPacket) (buf : List Nat) :
    RawPacket :=
  RawPacket.new
    (writeBytes buf
      (writeU16 (Opcode.to_u16 p.opcode) ++ utf8Encode p.filename_raw ++
        [0] ++ utf8Encode (Mode.as_str p.mode) ++ [0]))
    p.len

/-- Embeds `EncodePacket::encode` (fresh zeroed buffer of exactly
`len` bytes). -/
def RequestPacket.encode (p : RequestPacket) : RawPacket :=
  p.encode_using (List.replicate p.len 0)

/-- Embeds `AckPacket`. -/
structure AckPacket where
  block_id : Nat
deriving DecidableEq

/-- Embeds `AckPacket::new`. -/
def AckPacket.new (block_id : Nat) : AckPacket :=
  ⟨block_id⟩

/-- Embeds `Packet::len` for `AckPacket`: always 4. -/
def AckPacket.len (_ : AckPacket) : Nat := 4

/-- Embeds `DecodePacket::decode` for `AckPacket`. -/
def AckPacket.decode (data : List Nat) : DecodeOutcome AckPacket :=
  match readU16 data with
  | some (v, rest) =>
      match Opcode.from_u16 v with
      | some Opcode.ACK =>
          DecodeOutcome.ok
            (match readU16 rest with
             | some (bid, _) => some (AckPacket.new bid)
             | none => none)
      | _ => DecodeOutcome.ok none
  | none => DecodeOutcome.ok none

/-- Embeds `EncodePacket::encode_using` for `AckPacket`. -/
def AckPacket.encode_using (p : AckPacket) (buf : List Nat) : RawPacket :=
  RawPacket.new
    (writeBytes buf (writeU16 (Opcode.to_u16 Opcode.ACK) ++
      writeU16 p.block_id))
    p.len

/-- Embeds `EncodePacket::encode` for `AckPacket`. -/
def AckPacket.encode (p : AckPacket) : RawPacket :=
  p.encode_using (List.replicate p.len 0)

/-- Embeds `DataPacketOctet`: block id, backing buffer, valid length. -/
structure DataPacketOctet where
  block_id : Nat
  data : List Nat
  len : Nat
deriving DecidableEq

/-- Embeds `DataPacketOctet::from_vec`. -/
def DataPacketOctet.from_vec (block_id : Nat) (data : List Nat)
    (len : Nat) : DataPacketOctet :=
  ⟨block_id, data, len⟩

/-- Embeds `DataPacketOctet::from_slice`. -/
def DataPacketOctet.from_slice (block_id : Nat) (data : List Nat) :
    DataPacketOctet :=
  ⟨block_id, data, data.length⟩

/-- Embeds the `DataPacketOctet::data` accessor: the first `len` bytes of
the backing buffer. -/
def DataPacketOctet.data_bytes (p : DataPacketOctet) : List Nat :=
  p.data.take p.len

/-- Embeds `Packet::len` for `DataPacketOctet` (named `lenP` because `len`
is the struct field): 4 plus the FULL backing-buffer length. -/
def DataPacketOctet.lenP (p : DataPacketOctet) : Nat :=
  4 + p.data.length

/-- Embeds `DecodePacket::decode` for `DataPacketOctet`: DATA opcode, a
2-byte block id, and the whole remainder of the buffer as payload
(no upper-bound check on the payload length). -/
def DataPacketOctet.decode (data : List Nat) :
    DecodeOutcome DataPacketOctet :=
  match readU16 data with
  | some (v, rest) =>
      match Opcode.from_u16 v with
      | some Opcode.DATA =>
          match readU16 rest with
          | some (bid, rest4) =>
              DecodeOutcome.ok
                (some (DataPacketOctet.from_vec bid rest4 rest4.length))
          | none => DecodeOutcome.ok none
      | _ => DecodeOutcome.ok none
  | none => DecodeOutcome.ok none

/-- Embeds `EncodePacket::encode_using` for `DataPacketOctet`: writes the
opcode, the block id, and the ENTIRE backing buffer (`&self.data[..]`). -/
def DataPacketOctet.encode_using (p : DataPacketOctet) (buf : List Nat) :
    RawPacket :=
  RawPacket.new
    (writeBytes buf (writeU16 (Opcode.to_u16 Opcode.DATA) ++
      writeU16 p.block_id ++ p.data))
    p.lenP

/-- Embeds `EncodePacket::encode` for `DataPacketOctet`. -/
def DataPacketOctet.encode (p : DataPacketOctet) : RawPacket :=
  p.encode_using (List.replicate p.lenP 0)

/-- Embeds `ErrorPacket`: error code plus netascii-encoded message, as
stored by the Rust struct. -/
structure ErrorPacket where
  error : Error
  message : List Nat
deriving DecidableEq

/-- Embeds `ErrorPacket::new`: converts the message to netascii. -/
def ErrorPacket.new (error : Error) (msg : List Nat) : ErrorPacket :=
  ⟨error, to_netascii msg⟩

/-- Embeds the `ErrorPacket::message` accessor (named `message_text`
because `message` is the struct field): netascii-decodes the stored
message. -/
def ErrorPacket.message_text (p : ErrorPacket) : Option (List Nat) :=
  from_netascii p.message

/-- Embeds `Packet::len` for `ErrorPacket`. -/
def ErrorPacket.len (p : ErrorPacket) : Nat :=
  4 + (utf8Encode p.message).length + 1

/-- Embeds `DecodePacket::decode` for `ErrorPacket`.  In the ERROR-opcode
arm the Rust code slices `&data[4..]` unconditionally, which panics when
the buffer is shorter than 4 bytes; the model returns `panics` there. -/
def ErrorPacket.decode (data : List Nat) : DecodeOutcome ErrorPacket :=
  match readU16 data with
  | some (v, rest) =>
      match Opcode.from_u16 v with
      | some Opcode.ERROR =>
          if data.length < 4 then DecodeOutcome.panics
          else
            let error :=
              match readU16 rest with
              | some (c, _) => Error.from_u16 c
              | none => none
            let msg := (utf8Decode (data.drop 4)).map splitFirst
            match error, msg with
            | some e, some m => DecodeOutcome.ok (some (ErrorPacket.new e m))
            | _, _ => DecodeOutcome.ok none
      | _ => DecodeOutcome.ok none
  | none => DecodeOutcome.ok none

/-- Embeds `EncodePacket::encode_using` for `ErrorPacket`. -/
def ErrorPacket.encode_using (p : ErrorPacket) (buf : List Nat) :
    RawPacket :=
  RawPacket.new
    (writeBytes buf
      (writeU16 (Opcode.to_u16 Opcode.ERROR) ++ writeU16 (Error.to_u16 p.error) ++
        utf8Encode p.message ++ [0]))
    p.len

/-- Embeds `EncodePacket::encode` for `ErrorPacket`. -/
def ErrorPacket.encode (p : ErrorPacket) : RawPacket :=
  p.encode_using (List.replicate p.len 0)

/-! ### GET session state machine, from src/tftp/client.rs -/

/-- Models `std::old_io::net::ip::SocketAddr`: an ip plus a port. -/
structure SocketAddr where
  ip : Nat
  port : Nat
deriving DecidableEq

/-- The maximum data size constant from client.rs. -/
def MAX_DATA_SIZE : Nat := 512

/-- Session state of the `Client::get` receive loop: the remote address
(whose port is overwritten when the transfer-ID is locked), the
`first_packet` flag, the expected block id, and the bytes written to the
output sink so far. -/
structure GetState where
  remote_addr : SocketAddr
  first_packet : Bool
  current_id : Nat
  output : List Nat
deriving DecidableEq

/-- Result of processing one received datagram in the `Client::get` loop:
continue looping, break with success, return a TFTP error to the caller,
or abort abnormally.  `sent` lists the datagrams sent during the step. -/
inductive GetStep where
  | next (s : GetState) (sent : List (List Nat))
  | finished (s : GetState) (sent : List (List Nat))
  | failed (error : Error) (message : List Nat)
  | panicked
deriving DecidableEq

/-- Embeds one iteration of the `Client::get` receive loop from client.rs,
processing a datagram `dgram` received from address `src` (socket sends
and sink writes are modelled as succeeding; `RawPacket::new(buf, n)` is
modelled by taking `dgram` to be the `n` received bytes). -/
def Client.get_step (st : GetState) (src : SocketAddr) (dgram : List Nat) :
    GetStep :=
  let st1 :=
    if st.first_packet = true ∧ st.remote_addr.ip = src.ip then
      { st with remote_addr := ⟨st.remote_addr.ip, src.port⟩,
                first_packet := false }
    else st
  if src ≠ st1.remote_addr then GetStep.next st1 []
  else
    let packet := RawPacket.new dgram dgram.length
    match DataPacketOctet.decode packet.packet_buf with
    | DecodeOutcome.ok (some dp) =>
        if st1.current_id = dp.block_id then
          let ack := AckPacket.encode (AckPacket.new dp.block_id)
          if dp.data_bytes.length < MAX_DATA_SIZE then
            GetStep.finished
              { st1 with output := st1.output ++ dp.data_bytes }
              [ack.packet_buf]
          else
            GetStep.next
              { st1 with output := st1.output ++ dp.data_bytes,
                         current_id := (st1.current_id + 1) % 65536 }
              [ack.packet_buf]
        else GetStep.next st1 []
    | DecodeOutcome.ok none =>
        match ErrorPacket.decode packet.packet_buf with
        | DecodeOutcome.ok (some e) =>
            GetStep.failed e.error ((ErrorPacket.message_text e).getD [])
        | DecodeOutcome.ok none => GetStep.next st1 []
        | DecodeOutcome.panics => GetStep.panicked
    | DecodeOutcome.panics => GetStep.panicked

/-! ### Alternate mio-based client, from src/tftp/client_new.rs -/

/-- Embeds the decode-dispatch of `InternalClient::receive_data` from
client_new.rs: a DATA packet is decoded with `.unwrap()` (panicking when
the decode fails) and EVERY other opcode, including ERROR, hits
`unimplemented!()`, which panics. -/
def InternalClient.receive_data (dgram : List Nat) :
    DecodeOutcome DataPacketOctet :=
  let packet := RawPacket.new dgram dgram.length
  match RawPacket.opcode packet with
  | some Opcode.DATA =>
      match DataPacketOctet.decode packet.packet_buf with
      | DecodeOutcome.ok (some p) => DecodeOutcome.ok (some p)
      | _ => DecodeOutcome.panics
  | _ => DecodeOutcome.panics

/-! ### Dispatcher accept loop, from src/tftp/server.rs -/

/-- Embeds `RequestAcceptor::poll` from server.rs: the inbound datagram is
decoded as a `RequestPacket` via `DecodedPacket::decode(..).unwrap()`, so
an undecodable datagram panics instead of being dropped. -/
def RequestAcceptor.poll (src : SocketAddr) (dgram : List Nat) :
    DecodeOutcome (SocketAddr × RequestPacket) :=
  match RequestPacket.decode (RawPacket.new dgram dgram.length).packet_buf with
  | DecodeOutcome.ok (some p) => DecodeOutcome.ok (some (src, p))
  | _ => DecodeOutcome.panics

/-! ### Netascii helper lemmas -/

theorem from_loop_to_loop (s : List Nat) :
    from_netascii_loop (to_netascii_loop s) = some s := by
  induction s with
  | nil => rfl
  | cons c rest ih =>
      by_cases h10 : c = 10
      · subst h10
        simp only [to_netascii_loop, if_pos rfl]
        simp [from_netascii_loop, ih]
      · by_cases h13 : c = 13
        · subst h13
          simp only [to_netascii_loop,
            if_neg (by decide : ¬ (13:Nat) = 10), if_pos rfl]
          simp [from_netascii_loop, ih]
        · simp only [to_netascii_loop, if_neg h10, if_neg h13]
          cases hrest : to_netascii_loop rest with
          | nil =>
              rw [hrest] at ih
              have hnil : rest = [] := by
                simpa [from_netascii_loop] using ih.symm
              subst hnil
              simp [from_netascii_loop, if_neg h13]
          | cons d tl =>
              rw [hrest] at ih
              simp [from_netascii_loop, if_neg h13, ih]

theorem escape_required_to_loop (s : List Nat)
    (h : is_escape_required s = true) :
    is_escape_required (to_netascii_loop s) = true := by
  induction s with
  | nil => simp [is_escape_required] at h
  | cons c rest ih =>
      by_cases h10 : c = 10
      · subst h10
        simp [to_netascii_loop, is_escape_required]
      · by_cases h13 : c = 13
        · subst h13
          simp [to_netascii_loop, is_escape_required]
        · simp only [is_escape_required, List.any_cons, Bool.or_eq_true, beq_iff_eq] at h
          rcases h with h | h
          · rcases h with h | h
            · exact absurd h h13
            · exact absurd h h10
          · have := ih h
            simp only [to_netascii_loop, if_neg h10, if_neg h13]
            simp only [is_escape_required, List.any_cons, Bool.or_eq_true] at this ⊢
            exact Or.inr this

theorem crOk_tail (d : Nat) (rest : List Nat) (hd : ¬ d = 13)
    (h : crOk (d :: rest) = true) : crOk rest = true := by
  cases rest with
  | nil => rfl
  | cons e tl => simpa [crOk, if_neg hd] using h

theorem from_loop_isSome : ∀ s : List Nat, crOk s = true →
    (from_netascii_loop s).isSome = true
  | [], _ => rfl
  | [c], h => by
      simp only [crOk, bne_iff_ne, ne_eq, decide_eq_true_eq] at h
      simp [from_netascii_loop, if_neg h]
  | c :: d :: rest, h => by
      by_cases h13 : c = 13
      · subst h13
        have h2 : ((d == 10 || d == 0) && crOk (d :: rest)) = true := by
          have heq : crOk (13 :: d :: rest) =
              ((d == 10 || d == 0) && crOk (d :: rest)) := by
            simp [crOk]
          rwa [heq] at h
        rw [Bool.and_eq_true, Bool.or_eq_true, beq_iff_eq, beq_iff_eq] at h2
        obtain ⟨hd, htl⟩ := h2
        have hd13 : ¬ d = 13 := by rcases hd with hd | hd <;> simp [hd]
        have ihr := from_loop_isSome rest (crOk_tail d rest hd13 htl)
        rcases hd with hd | hd <;> subst hd
        · simp only [from_netascii_loop, if_pos rfl]
          cases hv : from_netascii_loop rest with
          | none => rw [hv] at ihr; simp at ihr
          | some v => simp [hv]
        · simp only [from_netascii_loop, if_pos rfl,
            if_neg (by decide : ¬ (0:Nat) = 10)]
          cases hv : from_netascii_loop rest with
          | none => rw [hv] at ihr; simp at ihr
          | some v => simp [hv]
      · simp only [crOk, if_neg h13] at h
        have ihr := from_loop_isSome (d :: rest) h
        simp only [from_netascii_loop, if_neg h13]
        cases hv : from_netascii_loop (d :: rest) with
        | none => rw [hv] at ihr; simp at ihr
        | some v => simp [hv]

/-! ### UTF-8 helper lemmas -/

theorem utf8Decode_encodeChar (v : Nat) (hv : ValidScalar v) (t : List Nat) :
    utf8Decode (utf8EncodeChar v ++ t) = (utf8Decode t).map (fun r => v :: r) := by
  rcases Nat.lt_or_ge v 128 with h1 | h1
  · have henc : utf8EncodeChar v = [v] := by simp [utf8EncodeChar, h1]
    rw [henc, List.cons_append, List.nil_append, utf8Decode]
    rw [if_pos h1]
  · have h1n : ¬ v < 128 := by omega
    rcases Nat.lt_or_ge v 2048 with h2 | h2
    · have henc : utf8EncodeChar v = [192 + v / 64, 128 + v % 64] := by
        simp [utf8EncodeChar, h1n, h2]
      rw [henc]
      simp only [List.cons_append, List.nil_append]
      rw [utf8Decode]
      rw [if_neg (by omega), if_neg (by omega), if_pos (by omega)]
      rw [utf8Tail1]
      rw [if_pos (show 128 ≤ 128 + v % 64 ∧ 128 + v % 64 < 192 by omega)]
      rw [show (192 + v / 64 - 192) * 64 + (128 + v % 64 - 128) = v by omega]
    · have h2n : ¬ v < 2048 := by omega
      rcases Nat.lt_or_ge v 65536 with h3 | h3
      · have henc : utf8EncodeChar v =
            [224 + v / 4096, 128 + v / 64 % 64, 128 + v % 64] := by
          simp [utf8EncodeChar, h1n, h2n, h3]
        rw [henc]
        simp only [List.cons_append, List.nil_append]
        rw [utf8Decode]
        rw [if_neg (by omega), if_neg (by omega), if_neg (by omega),
          if_pos (by omega)]
        rw [utf8Tail2]
        have hcond : (if 224 + v / 4096 = 224 then 160 else 128) ≤ 128 + v / 64 % 64 ∧
            128 + v / 64 % 64 < (if 224 + v / 4096 = 237 then 160 else 192) ∧
            128 ≤ 128 + v % 64 ∧ 128 + v % 64 < 192 := by
          refine ⟨?_, ?_, by omega, by omega⟩
          · split
            · next h224 =>
                have hz : v / 4096 = 0 := by omega
                omega
            · omega
          · split
            · next h237 =>
                have hz : v / 4096 = 13 := by omega
                rcases hv with hv | hv <;> omega
            · omega
        rw [if_pos hcond]
        rw [show (224 + v / 4096 - 224) * 4096 + (128 + v / 64 % 64 - 128) * 64 +
            (128 + v % 64 - 128) = v by omega]
      · have h3n : ¬ v < 65536 := by omega
        have h4 : v < 1114112 := by rcases hv with hv | hv <;> omega
        have henc : utf8EncodeChar v =
            [240 + v / 262144, 128 + v / 4096 % 64, 128 + v / 64 % 64,
              128 + v % 64] := by
          simp [utf8EncodeChar, h1n, h2n, h3n]
        rw [henc]
        simp only [List.cons_append, List.nil_append]
        rw [utf8Decode]
        rw [if_neg (by omega), if_neg (by omega), if_neg (by omega),
          if_neg (by omega), if_pos (by omega)]
        rw [utf8Tail3]
        have hcond : (if 240 + v / 262144 = 240 then 144 else 128) ≤ 128 + v / 4096 % 64 ∧
            128 + v / 4096 % 64 < (if 240 + v / 262144 = 244 then 144 else 192) ∧
            128 ≤ 128 + v / 64 % 64 ∧ 128 + v / 64 % 64 < 192 ∧
            128 ≤ 128 + v % 64 ∧ 128 + v % 64 < 192 := by
          refine ⟨?_, ?_, by omega, by omega, by omega, by omega⟩
          · split
            · next h240 =>
                have hz : v / 262144 = 0 := by omega
                omega
            · omega
          · split
            · next h244 =>
                have hz : v / 262144 = 4 := by omega
                omega
            · omega
        rw [if_pos hcond]
        rw [show (240 + v / 262144 - 240) * 262144 + (128 + v / 4096 % 64 - 128) * 4096 +
            (128 + v / 64 % 64 - 128) * 64 + (128 + v % 64 - 128) = v by omega]

theorem utf8Decode_encode_append (s t : List Nat) (hs : ValidStr s) :
    utf8Decode (utf8Encode s ++ t) = (utf8Decode t).map (fun r => s ++ r) := by
  induction s with
  | nil =>
      simp only [utf8Encode, List.flatMap_nil, List.nil_append]
      cases utf8Decode t <;> simp
  | cons v s2 ih =>
      have hv : ValidScalar v := hs v (List.mem_cons_self v s2)
      have hs2 : ValidStr s2 := fun w hw => hs w (List.mem_cons_of_mem v hw)
      have ih2 := ih hs2
      simp only [utf8Encode] at ih2 ⊢
      simp only [List.flatMap_cons, List.append_assoc]
      rw [utf8Decode_encodeChar v hv, ih2]
      cases utf8Decode t <;> simp

theorem utf8Decode_encode (s : List Nat) (hs : ValidStr s) :
    utf8Decode (utf8Encode s) = some s := by
  have h := utf8Decode_encode_append s [] hs
  simpa [utf8Decode] using h

/-! ### NUL-split helper lemmas -/

theorem splitFirst_append (s t : List Nat) (hs : ¬ 0 ∈ s) :
    splitFirst (s ++ 0 :: t) = s := by
  induction s with
  | nil => simp [splitFirst, List.takeWhile]
  | cons c s2 ih =>
      have hc : ¬ c = 0 := fun h => hs (by simp [h])
      have hs2 : ¬ 0 ∈ s2 := fun h => hs (List.mem_cons_of_mem c h)
      simp only [List.cons_append, splitFirst, List.takeWhile_cons]
      rw [show (c != 0) = true by simpa using hc]
      simpa [splitFirst] using ih hs2

theorem dropWhile_append_zero (s t : List Nat) (hs : ¬ 0 ∈ s) :
    List.dropWhile (fun c => c != 0) (s ++ 0 :: t) = 0 :: t := by
  induction s with
  | nil => simp [List.dropWhile]
  | cons c s2 ih =>
      have hc : ¬ c = 0 := fun h => hs (by simp [h])
      have hs2 : ¬ 0 ∈ s2 := fun h => hs (List.mem_cons_of_mem c h)
      simp only [List.cons_append, List.dropWhile_cons]
      rw [show (c != 0) = true by simpa using hc]
      simpa using ih hs2

theorem splitRest_append (s t : List Nat) (hs : ¬ 0 ∈ s) :
    splitRest (s ++ 0 :: t) = some t := by
  have hmem : (s ++ 0 :: t).contains 0 = true := by
    simp [List.contains_eq_any_beq]
  rw [splitRest, if_pos hmem, dropWhile_append_zero s t hs]
  rfl

theorem splitFirst_no_zero (s : List Nat) (hs : ¬ 0 ∈ s) :
    splitFirst s = s := by
  induction s with
  | nil => rfl
  | cons c s2 ih =>
      have hc : ¬ c = 0 := fun h => hs (by simp [h])
      have hs2 : ¬ 0 ∈ s2 := fun h => hs (List.mem_cons_of_mem c h)
      simp only [splitFirst, List.takeWhile_cons]
      rw [show (c != 0) = true by simpa using hc]
      simpa [splitFirst] using ih hs2

/-! ### Encoding-layout helper lemmas -/

theorem packet_buf_encode_using (w : List Nat) (n : Nat) (h : w.length = n) :
    (RawPacket.new (writeBytes (List.replicate n 0) w) n).packet_buf = w := by
  subst h
  simp [RawPacket.new, RawPacket.packet_buf, writeBytes,
    List.drop_replicate, List.take_append_of_le_length]

/-! ### Claim C3 -/

/-- C3: for every string `s`, `from_netascii (to_netascii s) = some s`:
the netascii escaping of LF to CR-LF and CR to CR-NUL is unconditionally
inverted by the decoder. -/
theorem C3_netascii_round_trip (s : List Nat) :
    from_netascii (to_netascii s) = some s := by
  cases hesc : is_escape_required s with
  | false => simp [to_netascii, from_netascii, hesc]
  | true =>
      have hout := escape_required_to_loop s hesc
      simp [to_netascii, from_netascii, hesc, hout, from_loop_to_loop s]

/-! ### Claim C10 -/

/-- C10: `from_netascii` rejects only malformed CR sequences: whenever every
occurrence of 13 in `s` is immediately followed by 10 or 0, decoding
succeeds; in particular a bare LF passes through unchanged,
`from_netascii [10] = some [10]`. -/
theorem C10_from_netascii_accepts_wellformed :
    (∀ s : List Nat, crOk s = true → (from_netascii s).isSome = true) ∧
    from_netascii [10] = some [10] := by
  constructor
  · intro s h
    cases hesc : is_escape_required s with
    | false => simp [from_netascii, hesc]
    | true =>
        simpa [from_netascii, hesc] using from_loop_isSome s h
  · decide

/-- Witness for C10: the concrete string [13, 10, 97] is CR-well-formed and
decodes successfully. -/
theorem C10_witness :
    crOk [13, 10, 97] = true ∧ (from_netascii [13, 10, 97]).isSome = true :=
  ⟨by decide, C10_from_netascii_accepts_wellformed.1 [13, 10, 97] (by decide)⟩


/-! ### Decidability instances for the validity predicates -/

instance (v : Nat) : Decidable (ValidScalar v) := by
  unfold ValidScalar
  infer_instance

instance (s : List Nat) : Decidable (ValidStr s) := by
  unfold ValidStr
  exact List.decidableBAll _ s

/-! ### Enumeration and escaping helper lemmas -/

theorem Error.from_u16_to_u16 (e : Error) :
    Error.from_u16 (Error.to_u16 e) = some e := by
  cases e <;> rfl

theorem Mode.from_str_as_str (m : Mode) :
    Mode.from_str (Mode.as_str m) = some m := by
  cases m <;> rfl

theorem is_escape_required_eq_false (s : List Nat)
    (hcr : ¬ 13 ∈ s) (hlf : ¬ 10 ∈ s) : is_escape_required s = false := by
  rw [is_escape_required, List.any_eq_false]
  intro x hx
  simp only [Bool.or_eq_true, beq_iff_eq, not_or]
  exact ⟨fun h => hcr (h ▸ hx), fun h => hlf (h ▸ hx)⟩

theorem to_netascii_id (s : List Nat) (h : is_escape_required s = false) :
    to_netascii s = s := by
  simp [to_netascii, h]

/-! ### Encode-layout lemmas, one per packet type -/

theorem request_encode_packet_buf (p : RequestPacket) :
    p.encode.packet_buf =
      writeU16 (Opcode.to_u16 p.opcode) ++ utf8Encode p.filename_raw ++ [0] ++
        utf8Encode (Mode.as_str p.mode) ++ [0] := by
  simp only [RequestPacket.encode, RequestPacket.encode_using]
  apply packet_buf_encode_using
  simp [RequestPacket.len, writeU16]
  omega

theorem ack_encode_packet_buf (p : AckPacket) :
    p.encode.packet_buf =
      writeU16 (Opcode.to_u16 Opcode.ACK) ++ writeU16 p.block_id := by
  simp only [AckPacket.encode, AckPacket.encode_using]
  apply packet_buf_encode_using
  simp [AckPacket.len, writeU16]

theorem data_encode_packet_buf (p : DataPacketOctet) :
    p.encode.packet_buf =
      writeU16 (Opcode.to_u16 Opcode.DATA) ++ writeU16 p.block_id ++ p.data := by
  simp only [DataPacketOctet.encode, DataPacketOctet.encode_using]
  apply packet_buf_encode_using
  simp [DataPacketOctet.lenP, writeU16]
  omega

theorem error_encode_packet_buf (p : ErrorPacket) :
    p.encode.packet_buf =
      writeU16 (Opcode.to_u16 Opcode.ERROR) ++ writeU16 (Error.to_u16 p.error) ++
        utf8Encode p.message ++ [0] := by
  simp only [ErrorPacket.encode, ErrorPacket.encode_using]
  apply packet_buf_encode_using
  simp [ErrorPacket.len, writeU16]
  omega

/-! ### Round-trip lemmas, one per packet type -/

theorem ack_decode_encode (b : Nat) (hb : b < 65536) :
    AckPacket.decode ((AckPacket.new b).encode.packet_buf) =
      DecodeOutcome.ok (some (AckPacket.new b)) := by
  have hval : b / 256 % 256 * 256 + b % 256 = b := by omega
  rw [ack_encode_packet_buf]
  simp [writeU16, AckPacket.decode, readU16, Opcode.from_u16, Opcode.to_u16,
    AckPacket.new, hval]

theorem data_decode_encode (bid : Nat) (d : List Nat) (hb : bid < 65536) :
    DataPacketOctet.decode
        ((DataPacketOctet.from_vec bid d d.length).encode.packet_buf) =
      DecodeOutcome.ok (some (DataPacketOctet.from_vec bid d d.length)) := by
  have hval : bid / 256 % 256 * 256 + bid % 256 = bid := by omega
  rw [data_encode_packet_buf]
  simp [writeU16, DataPacketOctet.decode, readU16, Opcode.from_u16,
    Opcode.to_u16, DataPacketOctet.from_vec, hval]

theorem utf8Decode_zero_mode (m : Mode) :
    utf8Decode (0 :: (utf8Encode (Mode.as_str m) ++ [0])) =
      some (0 :: (Mode.as_str m ++ [0])) := by
  cases m <;> decide

theorem mode_no_zero (m : Mode) : ¬ 0 ∈ Mode.as_str m := by
  cases m <;> decide

theorem request_decode_encode (p : RequestPacket)
    (h1 : ValidStr p.filename_raw) (h0 : ¬ 0 ∈ p.filename_raw) :
    RequestPacket.decode (p.encode.packet_buf) =
      DecodeOutcome.ok (some p) := by
  rw [request_encode_packet_buf]
  cases p with
  | ReadRequest f m =>
      simp only [RequestPacket.filename_raw] at h1 h0
      have hpb : writeU16 (Opcode.to_u16 (RequestPacket.ReadRequest f m).opcode) ++
          utf8Encode (RequestPacket.ReadRequest f m).filename_raw ++ [0] ++
          utf8Encode (Mode.as_str (RequestPacket.ReadRequest f m).mode) ++ [0] =
          0 :: 1 :: (utf8Encode f ++
            (0 :: (utf8Encode (Mode.as_str m) ++ [0]))) := by
        simp [writeU16, Opcode.to_u16, RequestPacket.opcode,
          RequestPacket.filename_raw, RequestPacket.mode, List.append_assoc]
      rw [hpb]
      simp only [RequestPacket.decode, readU16, Opcode.from_u16]
      norm_num
      rw [utf8Decode_encode_append f _ h1, utf8Decode_zero_mode m]
      simp only [Option.map_some, Option.map_some']
      rw [splitFirst_append f _ h0, splitRest_append f _ h0]
      simp only [splitFirst_append (Mode.as_str m) [] (mode_no_zero m),
        Mode.from_str_as_str]
  | WriteRequest f m =>
      simp only [RequestPacket.filename_raw] at h1 h0
      have hpb : writeU16 (Opcode.to_u16 (RequestPacket.WriteRequest f m).opcode) ++
          utf8Encode (RequestPacket.WriteRequest f m).filename_raw ++ [0] ++
          utf8Encode (Mode.as_str (RequestPacket.WriteRequest f m).mode) ++ [0] =
          0 :: 2 :: (utf8Encode f ++
            (0 :: (utf8Encode (Mode.as_str m) ++ [0]))) := by
        simp [writeU16, Opcode.to_u16, RequestPacket.opcode,
          RequestPacket.filename_raw, RequestPacket.mode, List.append_assoc]
      rw [hpb]
      simp only [RequestPacket.decode, readU16, Opcode.from_u16]
      norm_num
      rw [utf8Decode_encode_append f _ h1, utf8Decode_zero_mode m]
      simp only [Option.map_some, Option.map_some']
      rw [splitFirst_append f _ h0, splitRest_append f _ h0]
      simp only [splitFirst_append (Mode.as_str m) [] (mode_no_zero m),
        Mode.from_str_as_str]
      simp

theorem error_decode_encode (e : Error) (msg : List Nat)
    (h1 : ValidStr msg) (hcr : ¬ 13 ∈ msg) (hlf : ¬ 10 ∈ msg)
    (h0 : ¬ 0 ∈ msg) :
    ErrorPacket.decode ((ErrorPacket.mk e msg).encode.packet_buf) =
      DecodeOutcome.ok (some (ErrorPacket.mk e msg)) := by
  have hw : writeU16 (Error.to_u16 e) = [0, Error.to_u16 e] := by
    cases e <;> rfl
  have hne : to_netascii msg = msg :=
    to_netascii_id msg (is_escape_required_eq_false msg hcr hlf)
  rw [error_encode_packet_buf]
  have hpb : writeU16 (Opcode.to_u16 Opcode.ERROR) ++
      writeU16 (Error.to_u16 (ErrorPacket.mk e msg).error) ++
      utf8Encode (ErrorPacket.mk e msg).message ++ [0] =
      0 :: 5 :: 0 :: Error.to_u16 e :: (utf8Encode msg ++ [0]) := by
    show writeU16 (Opcode.to_u16 Opcode.ERROR) ++ writeU16 (Error.to_u16 e) ++
      utf8Encode msg ++ [0] = _
    rw [hw, show writeU16 (Opcode.to_u16 Opcode.ERROR) = [0, 5] from rfl]
    simp [List.append_assoc]
  rw [hpb]
  simp only [ErrorPacket.decode, readU16, Opcode.from_u16]
  norm_num
  rw [Error.from_u16_to_u16, utf8Decode_encode_append msg [0] h1]
  simp only [show utf8Decode [0] = some [0] from rfl, Option.map_some,
    Option.map_some']
  simp [splitFirst_append msg [] h0, ErrorPacket.new, hne]

/-- For every buffer of length at most 3, the Request, Ack and Data
decoders return a plain failure (`ok none`) and never panic. -/
theorem short_decode_total (data : List Nat) (hlen : data.length ≤ 3) :
    RequestPacket.decode data = DecodeOutcome.ok none ∧
    AckPacket.decode data = DecodeOutcome.ok none ∧
    DataPacketOctet.decode data = DecodeOutcome.ok none := by
  match data, hlen with
  | [], _ => exact ⟨by decide, by decide, by decide⟩
  | [b], _ =>
      refine ⟨?_, ?_, ?_⟩ <;>
        simp [RequestPacket.decode, AckPacket.decode, DataPacketOctet.decode,
          readU16]
  | [b, c], _ =>
      refine ⟨?_, ?_, ?_⟩
      · rcases hop : Opcode.from_u16 (b * 256 + c) with _ | op
        · simp [RequestPacket.decode, readU16, hop]
        · cases op <;>
            simp [RequestPacket.decode, readU16, hop, utf8Decode, splitFirst,
              splitRest, Mode.from_str, Mode.as_str]
      · rcases hop : Opcode.from_u16 (b * 256 + c) with _ | op
        · simp [AckPacket.decode, readU16, hop]
        · cases op <;> simp [AckPacket.decode, readU16, hop]
      · rcases hop : Opcode.from_u16 (b * 256 + c) with _ | op
        · simp [DataPacketOctet.decode, readU16, hop]
        · cases op <;> simp [DataPacketOctet.decode, readU16, hop]
  | [b, c, d], _ =>
      have hu : utf8Decode [d] = some [d] ∨ utf8Decode [d] = none := by
        rcases Nat.lt_or_ge d 128 with h | h
        · left
          simp [utf8Decode, h]
        · right
          rw [utf8Decode, if_neg (by omega)]
          split_ifs <;> simp [utf8Tail1, utf8Tail2, utf8Tail3]
      refine ⟨?_, ?_, ?_⟩
      · rcases hop : Opcode.from_u16 (b * 256 + c) with _ | op
        · simp [RequestPacket.decode, readU16, hop]
        · cases op
          case RRQ =>
            rcases hu with hu | hu
            · by_cases hd : d = 0
              · subst hd
                simp [RequestPacket.decode, readU16, hop, hu, splitFirst,
                  splitRest, Mode.from_str, Mode.as_str]
              · have hd2 : ¬ (0 = d) := fun h => hd h.symm
                simp [RequestPacket.decode, readU16, hop, hu, splitFirst,
                  splitRest, hd, hd2, Mode.from_str, Mode.as_str]
            · simp [RequestPacket.decode, readU16, hop, hu]
          case WRQ =>
            rcases hu with hu | hu
            · by_cases hd : d = 0
              · subst hd
                simp [RequestPacket.decode, readU16, hop, hu, splitFirst,
                  splitRest, Mode.from_str, Mode.as_str]
              · have hd2 : ¬ (0 = d) := fun h => hd h.symm
                simp [RequestPacket.decode, readU16, hop, hu, splitFirst,
                  splitRest, hd, hd2, Mode.from_str, Mode.as_str]
            · simp [RequestPacket.decode, readU16, hop, hu]
          case DATA => simp [RequestPacket.decode, readU16, hop]
          case ACK => simp [RequestPacket.decode, readU16, hop]
          case ERROR => simp [RequestPacket.decode, readU16, hop]
      · rcases hop : Opcode.from_u16 (b * 256 + c) with _ | op
        · simp [AckPacket.decode, readU16, hop]
        · cases op <;> simp [AckPacket.decode, readU16, hop]
      · rcases hop : Opcode.from_u16 (b * 256 + c) with _ | op
        · simp [DataPacketOctet.decode, readU16, hop]
        · cases op <;> simp [DataPacketOctet.decode, readU16, hop]

/-! ### Claim C1 -/

/-- C1: the claim asserts that decoding any buffer of length 0 to 3 returns
`None` for every packet type.  The first conjunct proves this for the
Request, Ack and Data decoders; but `ErrorPacket::decode` PANICS on the
2- and 3-byte buffers whose first two bytes are the ERROR opcode, because
it slices `&data[4..]` before checking the length (second and third
conjuncts evaluate the embedded decoder at those failing inputs). -/
theorem C1_error_decode_short_buffer_panics :
    (∀ data : List Nat, data.length ≤ 3 →
      RequestPacket.decode data = DecodeOutcome.ok none ∧
      AckPacket.decode data = DecodeOutcome.ok none ∧
      DataPacketOctet.decode data = DecodeOutcome.ok none) ∧
    ErrorPacket.decode [0, 5] = DecodeOutcome.panics ∧
    ErrorPacket.decode [0, 5, 0] = DecodeOutcome.panics :=
  ⟨short_decode_total, by decide, by decide⟩

/-- Witness for C1 at the concrete 3-byte buffer [0, 4, 0]. -/
theorem C1_witness :
    ([0, 4, 0] : List Nat).length ≤ 3 ∧
    (RequestPacket.decode [0, 4, 0] = DecodeOutcome.ok none ∧
      AckPacket.decode [0, 4, 0] = DecodeOutcome.ok none ∧
      DataPacketOctet.decode [0, 4, 0] = DecodeOutcome.ok none) :=
  ⟨by decide, C1_error_decode_short_buffer_panics.1 [0, 4, 0] (by decide)⟩

/-! ### Claim C4 -/

/-- C4: during an active GET session (transfer-ID locked, so
`first_packet = false`), a datagram from any address other than the locked
peer is ignored: the session state (expected block id, output sink,
locked peer address) is unchanged and nothing is sent. -/
theorem C4_transfer_id_mismatch_ignored (st : GetState) (src : SocketAddr)
    (dgram : List Nat) (hlock : st.first_packet = false)
    (hne : src ≠ st.remote_addr) :
    Client.get_step st src dgram = GetStep.next st [] := by
  simp only [Client.get_step]
  rw [if_neg (show ¬ (st.first_packet = true ∧ st.remote_addr.ip = src.ip) by
    simp [hlock])]
  rw [if_pos hne]

/-- Witness for C4 at a concrete locked session and a stranger address. -/
theorem C4_witness :
    (GetState.mk ⟨1, 2⟩ false 1 [7]).first_packet = false ∧
    (SocketAddr.mk 3 4) ≠ (GetState.mk ⟨1, 2⟩ false 1 [7]).remote_addr ∧
    Client.get_step (GetState.mk ⟨1, 2⟩ false 1 [7]) (SocketAddr.mk 3 4)
        [0, 3, 0, 1, 9] =
      GetStep.next (GetState.mk ⟨1, 2⟩ false 1 [7]) [] :=
  ⟨rfl, by decide,
    C4_transfer_id_mismatch_ignored (GetState.mk ⟨1, 2⟩ false 1 [7])
      (SocketAddr.mk 3 4) [0, 3, 0, 1, 9] rfl (by decide)⟩

/-! ### Claim C5 -/

/-- C5: the claim asserts that a well-formed Error packet always terminates
a session as a distinguishable failure value and never panics.  The
`client.rs` GET loop does surface it (second conjunct: error code plus
message reach the caller as a `failed` value), but the mio-based client of
client_new.rs hits `unimplemented!()` on the ERROR opcode and panics
(first conjunct), contradicting the claim.  The input is the well-formed
wire form of an Error packet with code 1 (FileNotFound) and an empty
message. -/
theorem C5_error_packet_panics_in_client_new :
    InternalClient.receive_data [0, 5, 0, 1, 0] = DecodeOutcome.panics ∧
    Client.get_step (GetState.mk ⟨1, 2⟩ false 1 []) (SocketAddr.mk 1 2)
        [0, 5, 0, 1, 0] =
      GetStep.failed Error.FileNotFound [] := by
  decide

/-! ### Claim C6 -/

/-- C6: the claim asserts that the dispatcher drops undecodable datagrams
and keeps serving; in fact `RequestAcceptor::poll` calls `.unwrap()` on
the decode result, so a datagram that does not decode as a RequestPacket
(here a DATA-opcode datagram, first conjunct) makes the dispatcher panic
(second conjunct). -/
theorem C6_dispatcher_panics_on_undecodable :
    RequestPacket.decode [0, 3, 0, 1] = DecodeOutcome.ok none ∧
    RequestAcceptor.poll (SocketAddr.mk 1 2) [0, 3, 0, 1] =
      DecodeOutcome.panics := by
  decide

/-! ### Claim C7 -/

/-- Counterexample to C7: a DATA buffer with a 513-byte payload decodes
successfully, whereas the claim says any payload longer than 512 bytes is
rejected with `None`. -/
theorem C7_counterexample_oversize_payload_accepted :
    DataPacketOctet.decode (0 :: 3 :: 0 :: 1 :: List.replicate 513 7) ≠
      DecodeOutcome.ok none := by
  decide

/-- C7 amended: `DataPacketOctet::decode` accepts every buffer carrying
the DATA opcode and a 2-byte block id, with a payload of ANY length
(0, up to 512, and beyond); it performs no 512-byte upper-bound check. -/
theorem C7_amended_data_decode_any_payload (hi lo : Nat)
    (payload : List Nat) :
    DataPacketOctet.decode (0 :: 3 :: hi :: lo :: payload) =
      DecodeOutcome.ok
        (some (DataPacketOctet.from_vec (hi * 256 + lo) payload
          payload.length)) := by
  simp [DataPacketOctet.decode, readU16, Opcode.from_u16]

/-! ### Claim C8 -/

/-- Counterexample to C8: for `from_vec(1, [9, 9], 1)` (valid length 1,
backing buffer length 2) the encoded packet is 6 bytes, not 4 + 1 = 5,
and its buffer retains the trailing byte beyond the valid length. -/
theorem C8_counterexample_trailing_bytes :
    (DataPacketOctet.from_vec 1 [9, 9] 1).encode.len ≠ 4 + 1 ∧
    (DataPacketOctet.from_vec 1 [9, 9] 1).encode.packet_buf =
      [0, 3, 0, 1, 9, 9] := by
  decide

/-- C8 amended: every encode produces a RawPacket whose reported length
equals its `packet_buf` length and whose `packet_buf` is exactly the bytes
written; for `DataPacketOctet` those bytes serialize the ENTIRE backing
buffer (`4 + data.len()` bytes), including any bytes beyond the valid
length `len`, so the reported length matches the claim's `4 + len` only
when `len` equals the buffer length. -/
theorem C8_amended_encode_layout :
    (∀ p : RequestPacket, p.encode.len = p.encode.packet_buf.length ∧
      p.encode.packet_buf =
        writeU16 (Opcode.to_u16 p.opcode) ++ utf8Encode p.filename_raw ++
          [0] ++ utf8Encode (Mode.as_str p.mode) ++ [0]) ∧
    (∀ p : AckPacket, p.encode.len = p.encode.packet_buf.length ∧
      p.encode.packet_buf =
        writeU16 (Opcode.to_u16 Opcode.ACK) ++ writeU16 p.block_id) ∧
    (∀ p : ErrorPacket, p.encode.len = p.encode.packet_buf.length ∧
      p.encode.packet_buf =
        writeU16 (Opcode.to_u16 Opcode.ERROR) ++
          writeU16 (Error.to_u16 p.error) ++ utf8Encode p.message ++ [0]) ∧
    (∀ (bid : Nat) (d : List Nat) (l : Nat),
      (DataPacketOctet.from_vec bid d l).encode.len = 4 + d.length ∧
      (DataPacketOctet.from_vec bid d l).encode.packet_buf =
        writeU16 (Opcode.to_u16 Opcode.DATA) ++ writeU16 bid ++ d) := by
  refine ⟨fun p => ⟨?_, request_encode_packet_buf p⟩,
    fun p => ⟨?_, ack_encode_packet_buf p⟩,
    fun p => ⟨?_, error_encode_packet_buf p⟩,
    fun bid d l => ⟨?_, data_encode_packet_buf _⟩⟩
  · rw [request_encode_packet_buf p]
    simp [RequestPacket.encode, RequestPacket.encode_using,
      RequestPacket.len, writeU16, RawPacket.new]
    omega
  · rw [ack_encode_packet_buf p]
    simp [AckPacket.encode, AckPacket.encode_using, AckPacket.len, writeU16,
      RawPacket.new]
  · rw [error_encode_packet_buf p]
    simp [ErrorPacket.encode, ErrorPacket.encode_using, ErrorPacket.len,
      writeU16, RawPacket.new]
    omega
  · simp [DataPacketOctet.encode, DataPacketOctet.encode_using,
      DataPacketOctet.lenP, DataPacketOctet.from_vec, RawPacket.new]

/-! ### Claim C9 -/

/-- C9: in a locked GET session expecting block 1, a Data packet with
block id 1 and a 300-byte payload makes the session write exactly those
300 bytes to the sink, send exactly one Ack for block 1 (the 4-byte wire
form [0, 4, 0, 1]), and declare the transfer finished — completion is
decided by the payload length (300 < 512) alone. -/
theorem C9_get_single_block_completes (a : SocketAddr) (payload : List Nat)
    (h : payload.length = 300) :
    Client.get_step (GetState.mk a false 1 []) a
        (0 :: 3 :: 0 :: 1 :: payload) =
      GetStep.finished (GetState.mk a false 1 payload) [[0, 4, 0, 1]] := by
  have hpb : (RawPacket.new (0 :: 3 :: 0 :: 1 :: payload)
      (0 :: 3 :: 0 :: 1 :: payload).length).packet_buf =
      0 :: 3 :: 0 :: 1 :: payload := by
    simp [RawPacket.new, RawPacket.packet_buf]
  have hdec : DataPacketOctet.decode (0 :: 3 :: 0 :: 1 :: payload) =
      DecodeOutcome.ok (some (DataPacketOctet.from_vec 1 payload
        payload.length)) := by
    simp [DataPacketOctet.decode, readU16, Opcode.from_u16]
  have hlen : payload.length < MAX_DATA_SIZE := by rw [h]; decide
  have hack : (AckPacket.encode (AckPacket.new 1)).packet_buf =
      [0, 4, 0, 1] := by decide
  simp only [Client.get_step, hpb, hdec]
  simp [DataPacketOctet.from_vec, DataPacketOctet.data_bytes, hlen, hack]

/-- Witness for C9 with a concrete 300-byte payload. -/
theorem C9_witness :
    (List.replicate 300 7).length = 300 ∧
    Client.get_step (GetState.mk ⟨1, 2⟩ false 1 []) ⟨1, 2⟩
        (0 :: 3 :: 0 :: 1 :: List.replicate 300 7) =
      GetStep.finished (GetState.mk ⟨1, 2⟩ false 1 (List.replicate 300 7))
        [[0, 4, 0, 1]] :=
  ⟨List.length_replicate 300 7,
    C9_get_single_block_completes ⟨1, 2⟩ (List.replicate 300 7)
      (List.length_replicate 300 7)⟩

/-! ### Claim C2 -/

/-- Counterexample to C2: `decode(encode(p)) == Some(p)` fails exactly at
the claim's named particulars.  An ErrorPacket whose message contains LF
(or NUL) does not round-trip, because `ErrorPacket::decode` re-applies the
netascii escaping through `ErrorPacket::new`; a DataPacketOctet whose
valid length is smaller than its backing buffer does not round-trip,
because encode emits the whole buffer; and a RequestPacket whose filename
contains CR does not round-trip, because the CR escapes to a NUL that
truncates the decoded filename field. -/
theorem C2_counterexample_round_trip_fails :
    ErrorPacket.decode ((ErrorPacket.new Error.DiskFull [10]).encode.packet_buf) ≠
      DecodeOutcome.ok (some (ErrorPacket.new Error.DiskFull [10])) ∧
    ErrorPacket.decode ((ErrorPacket.new Error.Undefined [0]).encode.packet_buf) ≠
      DecodeOutcome.ok (some (ErrorPacket.new Error.Undefined [0])) ∧
    DataPacketOctet.decode
        ((DataPacketOctet.from_vec 1 [9, 9] 1).encode.packet_buf) ≠
      DecodeOutcome.ok (some (DataPacketOctet.from_vec 1 [9, 9] 1)) ∧
    RequestPacket.decode
        ((RequestPacket.read_request [13] Mode.Octet).encode.packet_buf) ≠
      DecodeOutcome.ok (some (RequestPacket.read_request [13] Mode.Octet)) := by
  refine ⟨by decide, by decide, by decide, by decide⟩

/-- C2 amended: `decode(encode(p)) == Some(p)` holds for every AckPacket
with a 16-bit block id; for every RequestPacket whose stored netascii
filename contains no NUL (equivalently, whose original filename contains
neither CR nor NUL); for every DataPacketOctet whose valid length equals
its backing-buffer length; and for every ErrorPacket whose message
contains no CR, LF or NUL.  It fails in the cases of the counterexample. -/
theorem C2_amended_round_trip :
    (∀ b : Nat, b < 65536 →
      AckPacket.decode ((AckPacket.new b).encode.packet_buf) =
        DecodeOutcome.ok (some (AckPacket.new b))) ∧
    (∀ p : RequestPacket, ValidStr p.filename_raw → ¬ 0 ∈ p.filename_raw →
      RequestPacket.decode (p.encode.packet_buf) =
        DecodeOutcome.ok (some p)) ∧
    (∀ (bid : Nat) (d : List Nat), bid < 65536 →
      DataPacketOctet.decode
          ((DataPacketOctet.from_vec bid d d.length).encode.packet_buf) =
        DecodeOutcome.ok (some (DataPacketOctet.from_vec bid d d.length))) ∧
    (∀ (e : Error) (msg : List Nat), ValidStr msg → ¬ 13 ∈ msg →
      ¬ 10 ∈ msg → ¬ 0 ∈ msg →
      ErrorPacket.decode ((ErrorPacket.mk e msg).encode.packet_buf) =
        DecodeOutcome.ok (some (ErrorPacket.mk e msg))) :=
  ⟨ack_decode_encode, request_decode_encode, data_decode_encode,
    error_decode_encode⟩

/-- Witness for the amended C2, instantiating each conjunct at a concrete
packet (including a multi-byte UTF-8 filename scalar, 233). -/
theorem C2_amended_witness :
    AckPacket.decode ((AckPacket.new 4660).encode.packet_buf) =
      DecodeOutcome.ok (some (AckPacket.new 4660)) ∧
    RequestPacket.decode
        ((RequestPacket.ReadRequest [102, 233] Mode.Octet).encode.packet_buf) =
      DecodeOutcome.ok (some (RequestPacket.ReadRequest [102, 233] Mode.Octet)) ∧
    DataPacketOctet.decode
        ((DataPacketOctet.from_vec 2 [1, 2, 3] [1, 2, 3].length).encode.packet_buf) =
      DecodeOutcome.ok (some (DataPacketOctet.from_vec 2 [1, 2, 3] [1, 2, 3].length)) ∧
    ErrorPacket.decode
        ((ErrorPacket.mk Error.DiskFull [104, 105]).encode.packet_buf) =
      DecodeOutcome.ok (some (ErrorPacket.mk Error.DiskFull [104, 105])) :=
  ⟨C2_amended_round_trip.1 4660 (by decide),
    C2_amended_round_trip.2.1 (RequestPacket.ReadRequest [102, 233] Mode.Octet)
      (by decide) (by decide),
    C2_amended_round_trip.2.2.1 2 [1, 2, 3] (by decide),
    C2_amended_round_trip.2.2.2 Error.DiskFull [104, 105]
      (by decide) (by decide) (by decide) (by decide)⟩

end Tftp
